import Mathlib

/-!
Verification of the request-normalization module (`manifest/request.py`).

The module defines pydantic models (`Request` and its specializations
`LMRequest`, `LMChatRequest`, `LMScoreRequest`, `EmbeddingRequest`,
`DiffusionRequest`) and a single operation `Request.to_dict` that turns a
request into a backend-ready parameter dictionary, renaming fields through an
allow-list and dropping `None` values.

The shallow embedding below models Python values carried by request fields as
the inductive `Value`, a pydantic model's `.dict()` output as an association
list `List (String × Option Value)` in field-declaration order (`none` models
Python `None`), an allow-list `Dict[str, Tuple[str, Any]]` as an association
list `List (String × String × Option Value)` (first-match lookup, matching
Python dict semantics for distinct keys), and the Python dict built by the
comprehension in `to_dict` as a `List (String × Value)` with Python's
insertion/overwrite semantics (`pyDictInsert`).
-/

set_option autoImplicit false

namespace Manifest

/-- A float literal as it appears in the source, kept as its decimal mantissa
and exponent (`0.7` is `⟨7, 1⟩`): the module only stores and renames float
values, never computes with them, so this injective representation of the
source's literals is exact. -/
structure PyFloat where
  mantissa : Int
  exponent : Nat
deriving DecidableEq, Repr

instance : OfScientific PyFloat where
  ofScientific m b e := if b then ⟨Int.ofNat m, e⟩ else ⟨Int.ofNat (m * 10 ^ e), 0⟩

instance (n : Nat) : OfNat PyFloat n where
  ofNat := ⟨Int.ofNat n, 0⟩

/-- A Python value carried by a request field: strings, ints, floats,
booleans, lists of strings, lists of string-to-string records (chat
messages), and plain string-to-string dicts (the literal `{}` default of
`LMChatRequest.prompt`). -/
inductive Value where
  | str : String → Value
  | int : Int → Value
  | float : PyFloat → Value
  | bool : Bool → Value
  | listStr : List String → Value
  | listDict : List (List (String × String)) → Value
  | dict : List (String × String) → Value
deriving DecidableEq, Repr

/-- `ENGINE_SEP = "::"` — separator for compound engine identifiers. -/
def ENGINE_SEP : String := "::"

/-- `NOT_CACHE_KEYS = {"client_timeout", "batch_size"}`. -/
def NOT_CACHE_KEYS : List String := ["client_timeout", "batch_size"]

/-- An allow-list: Python `Dict[str, Tuple[str, Any]]`, internal field name to
(external field name, unused second tuple element). -/
abbrev AllowList := List (String × String × Option Value)

/-- `DEFAULT_REQUEST_KEYS` from the source. -/
def DEFAULT_REQUEST_KEYS : AllowList :=
  [("client_timeout", ("client_timeout", some (.int 60))),
   ("batch_size", ("batch_size", some (.int 8))),
   ("run_id", ("run_id", none))]

/-- `allowable_keys.get(k, (k, None))`: first-match lookup in the allow-list,
defaulting to `(k, None)`. -/
def lookupTuple (ak : AllowList) (k : String) : String × Option Value :=
  match ak.find? (fun p => p.1 == k) with
  | some p => p.2
  | none => (k, none)

/-- `allowable_keys.get(k, (k, None))[0]`: the external name of field `k`. -/
def lookupExt (ak : AllowList) (k : String) : String :=
  (lookupTuple ak k).1

/-- The `include_keys` computation of `to_dict`: `None` when the allow-list is
falsy (absent or empty); otherwise the allow-list's keys, with `"prompt"`
added when `add_prompt and "prompt"` holds (the literal `"prompt"` is a
non-empty string, hence truthy). -/
def includeKeys (ak : AllowList) (add_prompt : Bool) : Option (List String) :=
  if ak.isEmpty then none
  else some (ak.map (·.1) ++ (if add_prompt && !("prompt".isEmpty) then ["prompt"] else []))

/-- `self.dict(include=include_keys)` given the model's full field list `d` in
declaration order: all fields when `include` is `None`, otherwise the fields
whose names are members of the include set. -/
def filteredFields (d : List (String × Option Value)) (inc : Option (List String)) :
    List (String × Option Value) :=
  match inc with
  | none => d
  | some ks => d.filter (fun p => ks.contains p.1)

/-- Assignment `m[k] = v` on a Python dict: overwrite in place when the key is
present (keeping its position), otherwise append at the end. -/
def pyDictInsert (m : List (String × Value)) (k : String) (v : Value) :
    List (String × Value) :=
  if m.any (fun p => p.1 == k) then
    m.map (fun p => if p.1 == k then (k, v) else p)
  else m ++ [(k, v)]

/-- A Python dict built by a comprehension over `l` (later duplicate keys
overwrite earlier values in place). -/
def pyDictOfList (l : List (String × Value)) : List (String × Value) :=
  l.foldl (fun m p => pyDictInsert m p.1 p.2) []

/-- The body of `Request.to_dict`, generic over the model's `.dict()` output
`d`: compute `include_keys`, filter the fields, drop `None` values, rename
through the allow-list, and build the result dict. -/
def to_dictCore (d : List (String × Option Value)) (ak : AllowList)
    (add_prompt : Bool) : List (String × Value) :=
  (filteredFields d (includeKeys ak add_prompt)).foldl
    (fun m p =>
      match p.2 with
      | none => m
      | some v => pyDictInsert m (lookupExt ak p.1) v) []

/-- The entries `(external_name, value)` produced by the comprehension in
iteration order, before Python-dict collapsing of duplicate keys. -/
def emitted (d : List (String × Option Value)) (ak : AllowList)
    (add_prompt : Bool) : List (String × Value) :=
  (filteredFields d (includeKeys ak add_prompt)).filterMap
    (fun p => p.2.map (fun v => (lookupExt ak p.1, v)))

/-- `m.get(e)` on the resulting Python dict. -/
def lookupVal (m : List (String × Value)) (e : String) : Option Value :=
  (m.find? (fun p => p.1 == e)).map (·.2)

/-- The base `Request` pydantic model: one structure field per source field,
with the source's defaults.  `prompt` is declared `Union[str, List[str]]` in
the source; it is carried here as a `Value`. -/
structure Request where
  prompt : Value := .str ""
  engine : String := "text-ada-001"
  n : Int := 1
  client_timeout : Int := 120
  run_id : Option String := none
  batch_size : Int := 8
deriving DecidableEq, Repr

/-- `self.dict()` for `Request`: fields in declaration order. -/
def Request.dict (r : Request) : List (String × Option Value) :=
  [("prompt", some r.prompt),
   ("engine", some (.str r.engine)),
   ("n", some (.int r.n)),
   ("client_timeout", some (.int r.client_timeout)),
   ("run_id", r.run_id.map .str),
   ("batch_size", some (.int r.batch_size))]

/-- `Request.to_dict(allowable_keys=None, add_prompt=True)`. -/
def Request.to_dict (r : Request) (ak : AllowList := []) (add_prompt : Bool := true) :
    List (String × Value) :=
  to_dictCore r.dict ak add_prompt

/-- `LMRequest`, the generation specialization. -/
structure LMRequest extends Request where
  temperature : PyFloat := 0.7
  max_tokens : Int := 100
  max_new_tokens : Int := 20
  top_p : PyFloat := 1.0
  top_k : Int := 50
  logprobs : Option Int := none
  stop_sequences : Option (List String) := none
  num_beams : Int := 1
  do_sample : Bool := false
  repetition_penalty : PyFloat := 1.0
  length_penalty : PyFloat := 1.0
  presence_penalty : PyFloat := 0
  frequency_penalty : PyFloat := 0
deriving DecidableEq, Repr

/-- `self.dict()` for `LMRequest`: base-class fields first (pydantic keeps
base declaration order), then the specialization's fields. -/
def LMRequest.dict (r : LMRequest) : List (String × Option Value) :=
  r.toRequest.dict ++
  [("temperature", some (.float r.temperature)),
   ("max_tokens", some (.int r.max_tokens)),
   ("max_new_tokens", some (.int r.max_new_tokens)),
   ("top_p", some (.float r.top_p)),
   ("top_k", some (.int r.top_k)),
   ("logprobs", r.logprobs.map .int),
   ("stop_sequences", r.stop_sequences.map .listStr),
   ("num_beams", some (.int r.num_beams)),
   ("do_sample", some (.bool r.do_sample)),
   ("repetition_penalty", some (.float r.repetition_penalty)),
   ("length_penalty", some (.float r.length_penalty)),
   ("presence_penalty", some (.float r.presence_penalty)),
   ("frequency_penalty", some (.float r.frequency_penalty))]

/-- `to_dict` inherited by `LMRequest`. -/
def LMRequest.to_dict (r : LMRequest) (ak : AllowList := []) (add_prompt : Bool := true) :
    List (String × Value) :=
  to_dictCore r.dict ak add_prompt

/-- `LMChatRequest`: `LMRequest` with `prompt` re-declared as
`List[Dict[str, str]]` but with the literal default `{}` — an empty dict, not
an empty list (the source silences the type checker with `# type: ignore`,
and pydantic does not validate defaults, so the default really is `{}`). -/
structure LMChatRequest where
  prompt : Value := .dict []
  engine : String := "text-ada-001"
  n : Int := 1
  client_timeout : Int := 120
  run_id : Option String := none
  batch_size : Int := 8
  temperature : PyFloat := 0.7
  max_tokens : Int := 100
  max_new_tokens : Int := 20
  top_p : PyFloat := 1.0
  top_k : Int := 50
  logprobs : Option Int := none
  stop_sequences : Option (List String) := none
  num_beams : Int := 1
  do_sample : Bool := false
  repetition_penalty : PyFloat := 1.0
  length_penalty : PyFloat := 1.0
  presence_penalty : PyFloat := 0
  frequency_penalty : PyFloat := 0
deriving DecidableEq, Repr

/-- `self.dict()` for `LMChatRequest` (the overridden `prompt` keeps the base
class's first position in pydantic's field order). -/
def LMChatRequest.dict (r : LMChatRequest) : List (String × Option Value) :=
  [("prompt", some r.prompt),
   ("engine", some (.str r.engine)),
   ("n", some (.int r.n)),
   ("client_timeout", some (.int r.client_timeout)),
   ("run_id", r.run_id.map .str),
   ("batch_size", some (.int r.batch_size)),
   ("temperature", some (.float r.temperature)),
   ("max_tokens", some (.int r.max_tokens)),
   ("max_new_tokens", some (.int r.max_new_tokens)),
   ("top_p", some (.float r.top_p)),
   ("top_k", some (.int r.top_k)),
   ("logprobs", r.logprobs.map .int),
   ("stop_sequences", r.stop_sequences.map .listStr),
   ("num_beams", some (.int r.num_beams)),
   ("do_sample", some (.bool r.do_sample)),
   ("repetition_penalty", some (.float r.repetition_penalty)),
   ("length_penalty", some (.float r.length_penalty)),
   ("presence_penalty", some (.float r.presence_penalty)),
   ("frequency_penalty", some (.float r.frequency_penalty))]

/-- `to_dict` inherited by `LMChatRequest`. -/
def LMChatRequest.to_dict (r : LMChatRequest) (ak : AllowList := [])
    (add_prompt : Bool := true) : List (String × Value) :=
  to_dictCore r.dict ak add_prompt

/-- `LMScoreRequest(LMRequest): pass` — identical field set to `LMRequest`. -/
structure LMScoreRequest extends LMRequest
deriving DecidableEq, Repr

/-- `self.dict()` for `LMScoreRequest`. -/
def LMScoreRequest.dict (r : LMScoreRequest) : List (String × Option Value) :=
  r.toLMRequest.dict

/-- `to_dict` inherited by `LMScoreRequest`. -/
def LMScoreRequest.to_dict (r : LMScoreRequest) (ak : AllowList := [])
    (add_prompt : Bool := true) : List (String × Value) :=
  to_dictCore r.dict ak add_prompt

/-- `EmbeddingRequest(Request): pass` — identical field set to `Request`. -/
structure EmbeddingRequest extends Request
deriving DecidableEq, Repr

/-- `self.dict()` for `EmbeddingRequest`. -/
def EmbeddingRequest.dict (r : EmbeddingRequest) : List (String × Option Value) :=
  r.toRequest.dict

/-- `to_dict` inherited by `EmbeddingRequest`. -/
def EmbeddingRequest.to_dict (r : EmbeddingRequest) (ak : AllowList := [])
    (add_prompt : Bool := true) : List (String × Value) :=
  to_dictCore r.dict ak add_prompt

/-- `DiffusionRequest`. -/
structure DiffusionRequest extends Request where
  num_inference_steps : Int := 50
  height : Int := 512
  width : Int := 512
  guidance_scale : PyFloat := 7.5
  eta : PyFloat := 0.0
deriving DecidableEq, Repr

/-- `self.dict()` for `DiffusionRequest`. -/
def DiffusionRequest.dict (r : DiffusionRequest) : List (String × Option Value) :=
  r.toRequest.dict ++
  [("num_inference_steps", some (.int r.num_inference_steps)),
   ("height", some (.int r.height)),
   ("width", some (.int r.width)),
   ("guidance_scale", some (.float r.guidance_scale)),
   ("eta", some (.float r.eta))]

/-- `to_dict` inherited by `DiffusionRequest`. -/
def DiffusionRequest.to_dict (r : DiffusionRequest) (ak : AllowList := [])
    (add_prompt : Bool := true) : List (String × Value) :=
  to_dictCore r.dict ak add_prompt

/-! ## Lemmas about the Python-dict model -/

theorem foldl_drop_none (ak : AllowList) (l : List (String × Option Value)) :
    ∀ m : List (String × Value),
      l.foldl (fun m p =>
        match p.2 with
        | none => m
        | some v => pyDictInsert m (lookupExt ak p.1) v) m =
      (l.filterMap (fun p => p.2.map (fun v => (lookupExt ak p.1, v)))).foldl
        (fun m p => pyDictInsert m p.1 p.2) m := by
  induction l with
  | nil => intro m; rfl
  | cons p t ih =>
    intro m
    rcases p with ⟨k, v?⟩
    cases v? with
    | none => simpa using ih m
    | some v => simpa using ih (pyDictInsert m (lookupExt ak k) v)

/-- The comprehension in `to_dict` equals: emit all renamed non-null entries,
then build the Python dict. -/
theorem to_dictCore_eq_pyDict (d : List (String × Option Value)) (ak : AllowList)
    (b : Bool) : to_dictCore d ak b = pyDictOfList (emitted d ak b) := by
  unfold to_dictCore emitted pyDictOfList
  exact foldl_drop_none ak _ []

theorem find?_overwrite_ne (m : List (String × Value)) (k e : String) (v : Value)
    (h : e ≠ k) :
    (m.map (fun p => if p.1 == k then (k, v) else p)).find? (fun p => p.1 == e) =
      m.find? (fun p => p.1 == e) := by
  induction m with
  | nil => rfl
  | cons p t ih =>
    simp only [List.map_cons]
    by_cases hpk : p.1 = k
    · have hif : (if p.1 == k then (k, v) else p) = (k, v) := by simp [hpk]
      have hke : (k == e) = false := beq_eq_false_iff_ne.mpr (Ne.symm h)
      have hpe : (p.1 == e) = false := beq_eq_false_iff_ne.mpr (by rw [hpk]; exact Ne.symm h)
      rw [hif, List.find?_cons, List.find?_cons, hke, hpe]
      exact ih
    · have hif : (if p.1 == k then (k, v) else p) = p := by simp [hpk]
      rw [hif, List.find?_cons, List.find?_cons]
      by_cases hpe : p.1 = e
      · simp [hpe]
      · have hpe' : (p.1 == e) = false := beq_eq_false_iff_ne.mpr hpe
        rw [hpe']
        exact ih

theorem find?_overwrite_self (m : List (String × Value)) (k : String) (v : Value)
    (h : m.any (fun p => p.1 == k)) :
    (m.map (fun p => if p.1 == k then (k, v) else p)).find? (fun p => p.1 == k) =
      some (k, v) := by
  induction m with
  | nil => simp at h
  | cons p t ih =>
    simp only [List.map_cons]
    by_cases hpk : p.1 = k
    · have hif : (if p.1 == k then (k, v) else p) = (k, v) := by simp [hpk]
      rw [hif, List.find?_cons]
      simp
    · have hif : (if p.1 == k then (k, v) else p) = p := by simp [hpk]
      have hpk' : (p.1 == k) = false := beq_eq_false_iff_ne.mpr hpk
      have ht : t.any (fun p => p.1 == k) := by
        simp only [List.any_cons, hpk', Bool.false_or] at h
        exact h
      rw [hif, List.find?_cons, hpk']
      exact ih ht

/-- Python-dict assignment semantics at the level of `get`: the assigned key
reads back the new value, every other key is unchanged. -/
theorem lookupVal_pyDictInsert (m : List (String × Value)) (k e : String) (v : Value) :
    lookupVal (pyDictInsert m k v) e = if e = k then some v else lookupVal m e := by
  unfold pyDictInsert lookupVal
  by_cases hany : m.any (fun p => p.1 == k)
  · simp only [hany, if_true]
    by_cases he : e = k
    · subst he
      rw [find?_overwrite_self m e v hany]
      simp
    · rw [find?_overwrite_ne m k e v he]
      simp [he]
  · simp only [hany, if_false, List.find?_append]
    by_cases he : e = k
    · subst he
      have hnone : m.find? (fun p => p.1 == e) = none := by
        rw [List.find?_eq_none]
        intro x hx
        simp only [List.any_eq_true, beq_iff_eq] at hany
        simp only [beq_iff_eq]
        exact fun hh => hany ⟨x, hx, hh⟩
      simp [hnone, List.find?_cons]
    · have h1 : ¬ (k = e) := fun hh => he hh.symm
      simp [List.find?_cons, h1, he]

/-- Looking up `e` in the dict built from `l`: the value of the last entry of
`l` whose key is `e` (later duplicates overwrite earlier ones). -/
theorem lookupVal_pyDictOfList (l : List (String × Value)) (e : String) :
    lookupVal (pyDictOfList l) e =
      ((l.filter (fun p => p.1 == e)).getLast?).map Prod.snd := by
  have aux : ∀ (l : List (String × Value)) (m : List (String × Value)),
      lookupVal (l.foldl (fun m p => pyDictInsert m p.1 p.2) m) e =
        match (l.filter (fun p => p.1 == e)).getLast? with
        | some q => some q.2
        | none => lookupVal m e := by
    intro l
    induction l using List.reverseRecOn with
    | nil => intro m; simp
    | append_singleton t p ih =>
      intro m
      rw [List.foldl_append]
      simp only [List.foldl_cons, List.foldl_nil, List.filter_append]
      by_cases hpe : p.1 = e
      · simp only [List.filter_cons, List.filter_nil, hpe, beq_self_eq_true, if_true]
        rw [List.getLast?_concat, lookupVal_pyDictInsert]
        simp [hpe]
      · simp only [List.filter_cons, List.filter_nil, beq_iff_eq, hpe, if_false,
          List.append_nil]
        rw [lookupVal_pyDictInsert]
        simp only [Ne.symm hpe, if_false]
        exact ih m
  rw [pyDictOfList, aux l []]
  cases h : (l.filter (fun p => p.1 == e)).getLast? <;> simp [lookupVal]

/-- The key list after a `pyDictInsert`: unchanged when the key was present,
extended by the key otherwise. -/
theorem keys_pyDictInsert (m : List (String × Value)) (k : String) (v : Value) :
    (pyDictInsert m k v).map Prod.fst =
      if m.any (fun p => p.1 == k) then m.map Prod.fst else m.map Prod.fst ++ [k] := by
  unfold pyDictInsert
  by_cases hany : m.any (fun p => p.1 == k)
  · simp only [hany, if_true]
    rw [List.map_map]
    apply List.map_congr_left
    intro p _
    by_cases hpk : p.1 = k <;> simp [hpk]
  · simp [hany]

/-- Key membership in the dict built by `pyDictInsert`. -/
theorem mem_keys_pyDictInsert (m : List (String × Value)) (k e : String) (v : Value) :
    e ∈ (pyDictInsert m k v).map Prod.fst ↔ e ∈ m.map Prod.fst ∨ e = k := by
  rw [keys_pyDictInsert]
  by_cases hany : m.any (fun p => p.1 == k)
  · simp only [hany, if_true]
    constructor
    · exact Or.inl
    · rintro (hm | he)
      · exact hm
      · subst he
        simp only [List.any_eq_true, beq_iff_eq] at hany
        obtain ⟨p, hp, hpk⟩ := hany
        exact List.mem_map.mpr ⟨p, hp, hpk⟩
  · simp [hany]

/-- Key membership after folding `pyDictInsert` over a list of entries. -/
theorem mem_keys_foldl_insert (e : String) (l : List (String × Value)) :
    ∀ m : List (String × Value),
      (e ∈ ((l.foldl (fun m p => pyDictInsert m p.1 p.2) m).map Prod.fst) ↔
        e ∈ m.map Prod.fst ∨ e ∈ l.map Prod.fst) := by
  induction l with
  | nil => intro m; simp
  | cons p t ih =>
    intro m
    simp only [List.foldl_cons, List.map_cons, List.mem_cons]
    rw [ih (pyDictInsert m p.1 p.2), mem_keys_pyDictInsert]
    tauto

theorem mem_keys_pyDictOfList (e : String) (l : List (String × Value)) :
    e ∈ (pyDictOfList l).map Prod.fst ↔ e ∈ l.map Prod.fst := by
  rw [pyDictOfList, mem_keys_foldl_insert]
  simp

/-- `pyDictInsert` preserves distinctness of keys. -/
theorem nodup_keys_pyDictInsert (m : List (String × Value)) (k : String) (v : Value)
    (h : (m.map Prod.fst).Nodup) : ((pyDictInsert m k v).map Prod.fst).Nodup := by
  rw [keys_pyDictInsert]
  by_cases hany : m.any (fun p => p.1 == k)
  · simp only [hany, if_true]
    exact h
  · rw [if_neg hany, List.nodup_append]
    refine ⟨h, List.nodup_singleton k, ?_⟩
    intro x hx hxk
    simp only [List.mem_singleton] at hxk
    subst hxk
    simp only [List.any_eq_true, beq_iff_eq] at hany
    simp only [List.mem_map] at hx
    obtain ⟨p, hp, hpk⟩ := hx
    exact hany ⟨p, hp, hpk⟩

/-- The result of the comprehension is a genuine mapping: its keys are
pairwise distinct. -/
theorem nodup_keys_pyDictOfList (l : List (String × Value)) :
    ((pyDictOfList l).map Prod.fst).Nodup := by
  have aux : ∀ (l m : List (String × Value)), (m.map Prod.fst).Nodup →
      (((l.foldl (fun m p => pyDictInsert m p.1 p.2) m)).map Prod.fst).Nodup := by
    intro l
    induction l with
    | nil => intro m hm; exact hm
    | cons p t ih =>
      intro m hm
      exact ih _ (nodup_keys_pyDictInsert m p.1 p.2 hm)
  exact aux l [] (by simp)

/-- Membership in the emitted entry list. -/
theorem mem_emitted (d : List (String × Option Value)) (ak : AllowList) (b : Bool)
    (e : String) (v : Value) :
    (e, v) ∈ emitted d ak b ↔
      ∃ k, (k, some v) ∈ filteredFields d (includeKeys ak b) ∧ lookupExt ak k = e := by
  unfold emitted
  rw [List.mem_filterMap]
  constructor
  · rintro ⟨⟨k, v?⟩, hmem, heq⟩
    cases v? with
    | none => simp at heq
    | some w =>
      simp only [Option.map_some', Option.some.injEq, Prod.mk.injEq] at heq
      obtain ⟨he, hv⟩ := heq
      exact ⟨k, by rw [← hv]; exact hmem, he⟩
  · rintro ⟨k, hmem, he⟩
    exact ⟨(k, some v), hmem, by simp [he]⟩

/-- Every key of the normalized result is the external name of some candidate
field whose value is non-null. -/
theorem keys_to_dictCore_from_candidates (d : List (String × Option Value))
    (ak : AllowList) (b : Bool) (e : String)
    (he : e ∈ (to_dictCore d ak b).map Prod.fst) :
    ∃ k v, (k, some v) ∈ filteredFields d (includeKeys ak b) ∧ lookupExt ak k = e := by
  rw [to_dictCore_eq_pyDict, mem_keys_pyDictOfList] at he
  simp only [List.mem_map] at he
  obtain ⟨⟨e', v⟩, hp, hfst⟩ := he
  subst hfst
  obtain ⟨k, hk, hext⟩ := (mem_emitted d ak b _ v).mp hp
  exact ⟨k, v, hk, hext⟩

/-- `lookupExt` written through `find?`, for congruence reasoning. -/
theorem lookupExt_eq_find? (ak : AllowList) (k : String) :
    lookupExt ak k = ((ak.find? (fun p => p.1 == k)).map (fun p => p.2.1)).getD k := by
  unfold lookupExt lookupTuple
  cases h : ak.find? (fun p => p.1 == k) <;> simp [h]

/-- The external name found by `find?` depends only on the (internal name,
external name) projection of the allow-list. -/
theorem find?_proj (ak1 ak2 : AllowList)
    (h : ak1.map (fun p => (p.1, p.2.1)) = ak2.map (fun p => (p.1, p.2.1)))
    (k : String) :
    (ak1.find? (fun p => p.1 == k)).map (fun p => p.2.1) =
      (ak2.find? (fun p => p.1 == k)).map (fun p => p.2.1) := by
  induction ak1 generalizing ak2 with
  | nil =>
    cases ak2 with
    | nil => rfl
    | cons p t => simp at h
  | cons p1 t1 ih =>
    cases ak2 with
    | nil => simp at h
    | cons p2 t2 =>
      simp only [List.map_cons, List.cons.injEq, Prod.mk.injEq] at h
      obtain ⟨⟨h11, h12⟩, ht⟩ := h
      rw [List.find?_cons, List.find?_cons, h11]
      cases hb : (p2.1 == k) with
      | true => simp [h12]
      | false => exact ih t2 ht

/-! ## The claims -/

/-- C1, counterexample: the claim says a default-constructed descriptor
normalizes (no allow-list, `keep_prompt=true`) to a mapping containing only
`prompt`; but the default `Request` also emits `engine` (and `n`,
`client_timeout`, `batch_size`), since `to_dict` only drops `None` values,
not default values. -/
theorem C1_counterexample :
    "engine" ∈ (Request.to_dict {} [] true).map Prod.fst ∧ "engine" ≠ "prompt" := by
  decide

/-- C1, amended: a descriptor with every field at its default, normalized
with no allow-list and `keep_prompt=true`, yields the mapping of all its
fields with non-null defaults (in declaration order); only the fields whose
default is `None` (`run_id`, and for generation specializations `logprobs`
and `stop_sequences`) are dropped.  Proved for every specialization. -/
theorem C1_amended_default_to_dict :
    Request.to_dict {} [] true =
      [("prompt", .str ""), ("engine", .str "text-ada-001"), ("n", .int 1),
       ("client_timeout", .int 120), ("batch_size", .int 8)] ∧
    LMRequest.to_dict {} [] true =
      [("prompt", .str ""), ("engine", .str "text-ada-001"), ("n", .int 1),
       ("client_timeout", .int 120), ("batch_size", .int 8),
       ("temperature", .float 0.7), ("max_tokens", .int 100),
       ("max_new_tokens", .int 20), ("top_p", .float 1.0), ("top_k", .int 50),
       ("num_beams", .int 1), ("do_sample", .bool false),
       ("repetition_penalty", .float 1.0), ("length_penalty", .float 1.0),
       ("presence_penalty", .float 0), ("frequency_penalty", .float 0)] ∧
    LMChatRequest.to_dict {} [] true =
      [("prompt", .dict []), ("engine", .str "text-ada-001"), ("n", .int 1),
       ("client_timeout", .int 120), ("batch_size", .int 8),
       ("temperature", .float 0.7), ("max_tokens", .int 100),
       ("max_new_tokens", .int 20), ("top_p", .float 1.0), ("top_k", .int 50),
       ("num_beams", .int 1), ("do_sample", .bool false),
       ("repetition_penalty", .float 1.0), ("length_penalty", .float 1.0),
       ("presence_penalty", .float 0), ("frequency_penalty", .float 0)] ∧
    LMScoreRequest.to_dict {} [] true =
      [("prompt", .str ""), ("engine", .str "text-ada-001"), ("n", .int 1),
       ("client_timeout", .int 120), ("batch_size", .int 8),
       ("temperature", .float 0.7), ("max_tokens", .int 100),
       ("max_new_tokens", .int 20), ("top_p", .float 1.0), ("top_k", .int 50),
       ("num_beams", .int 1), ("do_sample", .bool false),
       ("repetition_penalty", .float 1.0), ("length_penalty", .float 1.0),
       ("presence_penalty", .float 0), ("frequency_penalty", .float 0)] ∧
    EmbeddingRequest.to_dict {} [] true =
      [("prompt", .str ""), ("engine", .str "text-ada-001"), ("n", .int 1),
       ("client_timeout", .int 120), ("batch_size", .int 8)] ∧
    DiffusionRequest.to_dict {} [] true =
      [("prompt", .str ""), ("engine", .str "text-ada-001"), ("n", .int 1),
       ("client_timeout", .int 120), ("batch_size", .int 8),
       ("num_inference_steps", .int 50), ("height", .int 512),
       ("width", .int 512), ("guidance_scale", .float 7.5),
       ("eta", .float 0.0)] := by
  decide

/-- C2, counterexample: the claim says a null-valued field's external name
never appears in the result regardless of the allow-list's content; but when
another field is renamed to the same external name, that name does appear.
Here `run_id` is null with external name `"e"`, yet `"e"` is a key of the
result (carrying the value of `engine`). -/
theorem C2_counterexample :
    ({} : Request).run_id = none ∧
    lookupExt [("run_id", ("e", none)), ("engine", ("e", none))] "run_id" = "e" ∧
    "e" ∈ (Request.to_dict {} [("run_id", ("e", none)), ("engine", ("e", none))]
            true).map Prod.fst := by
  decide

/-- C2, amended: a null-valued field never contributes an entry to the
result, and neither does a field outside the candidate set: every key of the
normalize result is the external name of some candidate field whose current
value is non-null.  (Consequently, a null field's external name is absent
unless some other non-null candidate field is mapped to that same external
name, as the counterexample shows can happen.) -/
theorem C2_null_and_noncandidate_fields_dropped (d : List (String × Option Value))
    (ak : AllowList) (b : Bool) (e : String)
    (he : e ∈ (to_dictCore d ak b).map Prod.fst) :
    ∃ k v, (k, some v) ∈ filteredFields d (includeKeys ak b) ∧ lookupExt ak k = e :=
  keys_to_dictCore_from_candidates d ak b e he

/-- C2, witness for the amended theorem at a concrete input. -/
theorem C2_witness :
    "engine" ∈ (to_dictCore (Request.dict {}) [] true).map Prod.fst ∧
    (∃ k v, (k, some v) ∈ filteredFields (Request.dict {}) (includeKeys [] true) ∧
      lookupExt [] k = "engine") :=
  ⟨by decide,
   C2_null_and_noncandidate_fields_dropped (Request.dict {}) [] true "engine"
     (by decide)⟩

/-- C3: with a non-empty allow-list and `keep_prompt=true`, the candidate set
(`include_keys`) is exactly the allow-list's keys plus `"prompt"` (even when
`"prompt"` is not an allow-list key), and consequently the result contains an
entry under the prompt's external name whenever the prompt value is
non-null. -/
theorem C3_include_keys_and_prompt (d : List (String × Option Value))
    (ak : AllowList) (hak : ak ≠ []) (v : Value)
    (hp : ("prompt", some v) ∈ d) :
    (∃ l, includeKeys ak true = some l ∧
      ∀ k, k ∈ l ↔ (k ∈ ak.map (·.1) ∨ k = "prompt")) ∧
    lookupExt ak "prompt" ∈ (to_dictCore d ak true).map Prod.fst := by
  have hne : ak.isEmpty = false := by
    cases ak with
    | nil => exact absurd rfl hak
    | cons a t => rfl
  have hinc : includeKeys ak true = some (ak.map (·.1) ++ ["prompt"]) := by
    unfold includeKeys
    rw [hne]
    rfl
  refine ⟨⟨ak.map (·.1) ++ ["prompt"], hinc, ?_⟩, ?_⟩
  · intro k
    simp
  · have hcand : ("prompt", some v) ∈ filteredFields d (includeKeys ak true) := by
      rw [hinc]
      unfold filteredFields
      rw [List.mem_filter]
      exact ⟨hp, by simp⟩
    have hem : (lookupExt ak "prompt", v) ∈ emitted d ak true :=
      (mem_emitted d ak true _ v).mpr ⟨"prompt", hcand, rfl⟩
    rw [to_dictCore_eq_pyDict, mem_keys_pyDictOfList]
    exact List.mem_map.mpr ⟨_, hem, rfl⟩

/-- C3, witness at a concrete input. -/
theorem C3_witness :
    (([("temperature", ("temp", none))] : AllowList) ≠ [] ∧
      ("prompt", some (Value.str "")) ∈ Request.dict {}) ∧
    ((∃ l, includeKeys [("temperature", ("temp", none))] true = some l ∧
        ∀ k, k ∈ l ↔
          (k ∈ ([("temperature", ("temp", none))] : AllowList).map (·.1) ∨
            k = "prompt")) ∧
      lookupExt [("temperature", ("temp", none))] "prompt" ∈
        (to_dictCore (Request.dict {}) [("temperature", ("temp", none))]
          true).map Prod.fst) :=
  ⟨⟨by decide, by decide⟩,
   C3_include_keys_and_prompt (Request.dict {}) [("temperature", ("temp", none))]
     (by decide) (Value.str "") (by decide)⟩

/-- C4: an `LMRequest` with `temperature=0.9`, `max_tokens=50` and all other
fields at default, normalized with allow-list `{"temperature": ("temp",
None)}` and `keep_prompt=true`, yields exactly the two-entry mapping with
`temp` bound to `0.9` and `prompt` bound to the descriptor's prompt value
(the default empty string); `max_tokens` is absent. -/
theorem C4_temperature_rename_example :
    LMRequest.to_dict { temperature := 0.9, max_tokens := 50 }
      [("temperature", ("temp", none))] true =
      [("prompt", .str ""), ("temp", .float 0.9)] ∧
    "max_tokens" ∉ (LMRequest.to_dict { temperature := 0.9, max_tokens := 50 }
      [("temperature", ("temp", none))] true).map Prod.fst := by
  decide

/-- C5, counterexample: the claim says that with `keep_prompt=false` and a
non-empty allow-list lacking the key `"prompt"`, the result never contains a
`"prompt"` key; but an allow-list may rename another field **to** the
external name `"prompt"`: with `{"engine": ("prompt", None)}` the result is
`{"prompt": "text-ada-001"}`. -/
theorem C5_counterexample :
    ([("engine", ("prompt", none))] : AllowList) ≠ [] ∧
    "prompt" ∉ ([("engine", ("prompt", none))] : AllowList).map (·.1) ∧
    "prompt" ∈ (Request.to_dict {} [("engine", ("prompt", none))] false).map
      Prod.fst := by
  decide

/-- C5, amended: with `keep_prompt=false` and a non-empty allow-list that
neither has `"prompt"` as a key nor maps any field to the external name
`"prompt"`, the result contains no `"prompt"` key, even when the
descriptor's prompt value is non-null and non-empty. -/
theorem C5_no_prompt_key (d : List (String × Option Value)) (ak : AllowList)
    (hak : ak ≠ []) (hk : "prompt" ∉ ak.map (·.1))
    (hv : ∀ p ∈ ak, p.2.1 ≠ "prompt") :
    "prompt" ∉ (to_dictCore d ak false).map Prod.fst := by
  intro hmem
  obtain ⟨k, v, hcand, hext⟩ :=
    keys_to_dictCore_from_candidates d ak false "prompt" hmem
  have hne : ak.isEmpty = false := by
    cases ak with
    | nil => exact absurd rfl hak
    | cons a t => rfl
  have hinc : includeKeys ak false = some (ak.map (·.1)) := by
    unfold includeKeys
    rw [hne]
    simp
  rw [hinc] at hcand
  unfold filteredFields at hcand
  rw [List.mem_filter] at hcand
  obtain ⟨_, hkmem⟩ := hcand
  have hkmem' : k ∈ ak.map (·.1) := by simpa using hkmem
  have hsome : (ak.find? (fun p => p.1 == k)).isSome := by
    rw [List.find?_isSome]
    obtain ⟨p, hpmem, hpk⟩ := List.mem_map.mp hkmem'
    exact ⟨p, hpmem, by simp [hpk]⟩
  obtain ⟨p, hfind⟩ := Option.isSome_iff_exists.mp hsome
  have hpmem : p ∈ ak := List.mem_of_find?_eq_some hfind
  have hlook : lookupExt ak k = p.2.1 := by
    unfold lookupExt lookupTuple
    rw [hfind]
  exact hv p hpmem (by rw [← hlook, hext])

/-- C5, witness for the amended theorem at a concrete input. -/
theorem C5_witness :
    (([("engine", ("eng", none))] : AllowList) ≠ [] ∧
      "prompt" ∉ ([("engine", ("eng", none))] : AllowList).map (·.1) ∧
      (∀ p ∈ ([("engine", ("eng", none))] : AllowList), p.2.1 ≠ "prompt")) ∧
    "prompt" ∉ (to_dictCore (Request.dict {}) [("engine", ("eng", none))]
      false).map Prod.fst :=
  ⟨⟨by decide, by decide, by decide⟩,
   C5_no_prompt_key (Request.dict {}) [("engine", ("eng", none))]
     (by decide) (by decide) (by decide)⟩

/-- C6: the source declares `LMChatRequest.prompt : List[Dict[str, str]]` but
gives it the literal default `{}` — an empty **dict**, not an empty sequence
(the annotation is contradicted and silenced with `# type: ignore`, and
pydantic does not validate defaults).  So the default-constructed chat
request's prompt is the empty mapping, not the empty sequence the
claim/spec states. -/
theorem C6_default_prompt_is_empty_dict :
    ({} : LMChatRequest).prompt = Value.dict [] ∧
    ({} : LMChatRequest).prompt ≠ Value.listDict [] := by
  decide

/-- C7: `to_dict` never reads the second element of the allow-list's value
tuples — two allow-lists with the same keys and the same external names but
arbitrary second elements produce identical results. -/
theorem C7_second_tuple_element_unused (d : List (String × Option Value))
    (ak1 ak2 : AllowList) (b : Bool)
    (h : ak1.map (fun p => (p.1, p.2.1)) = ak2.map (fun p => (p.1, p.2.1))) :
    to_dictCore d ak1 b = to_dictCore d ak2 b := by
  have hkeys : ak1.map (·.1) = ak2.map (·.1) := by
    have h2 := congrArg (List.map Prod.fst) h
    simpa [List.map_map, Function.comp] using h2
  have hemp : ak1.isEmpty = ak2.isEmpty := by
    cases ak1 <;> cases ak2 <;> simp_all
  have hext : ∀ k, lookupExt ak1 k = lookupExt ak2 k := by
    intro k
    rw [lookupExt_eq_find?, lookupExt_eq_find?, find?_proj ak1 ak2 h k]
  have hinc : includeKeys ak1 b = includeKeys ak2 b := by
    unfold includeKeys
    rw [hkeys, hemp]
  unfold to_dictCore
  rw [hinc]
  congr 1
  funext m p
  cases hp : p.2 with
  | none => rfl
  | some v => simp [hext p.1]

/-- C7, witness: two concrete allow-lists differing only in the unused
second tuple element give the same result. -/
theorem C7_witness :
    ([("n", ("count", some (Value.int 60)))] : AllowList).map
        (fun p => (p.1, p.2.1)) =
      ([("n", ("count", none))] : AllowList).map (fun p => (p.1, p.2.1)) ∧
    to_dictCore (Request.dict {}) [("n", ("count", some (Value.int 60)))] true =
      to_dictCore (Request.dict {}) [("n", ("count", none))] true :=
  ⟨by decide,
   C7_second_tuple_element_unused (Request.dict {})
     [("n", ("count", some (Value.int 60)))] [("n", ("count", none))] true
     (by decide)⟩

/-- C8: when two distinct internal fields are mapped to the same external
name `e`, no error is raised (the model is a total function) and the
later-processed field's value silently overwrites the earlier one: if the
comprehension emits exactly `(e, v1)` then `(e, v2)` under key `e`, the
result maps `e` to `v2`. -/
theorem C8_later_field_overwrites (d : List (String × Option Value))
    (ak : AllowList) (b : Bool) (e k1 k2 : String) (v1 v2 : Value)
    (hk : k1 ≠ k2) (h1 : lookupExt ak k1 = e) (h2 : lookupExt ak k2 = e)
    (hf : (emitted d ak b).filter (fun p => p.1 == e) = [(e, v1), (e, v2)]) :
    lookupVal (to_dictCore d ak b) e = some v2 := by
  rw [to_dictCore_eq_pyDict, lookupVal_pyDictOfList, hf]
  rfl

/-- C8, witness: `engine` and `n` both renamed to `"x"`; the result binds
`"x"` to the value of `n`, the later-processed field. -/
theorem C8_witness :
    ("engine" ≠ "n" ∧
      lookupExt [("engine", ("x", none)), ("n", ("x", none))] "engine" = "x" ∧
      lookupExt [("engine", ("x", none)), ("n", ("x", none))] "n" = "x" ∧
      (emitted (Request.dict {}) [("engine", ("x", none)), ("n", ("x", none))]
          false).filter (fun p => p.1 == "x") =
        [("x", Value.str "text-ada-001"), ("x", Value.int 1)]) ∧
    lookupVal (to_dictCore (Request.dict {})
        [("engine", ("x", none)), ("n", ("x", none))] false) "x" =
      some (Value.int 1) :=
  ⟨⟨by decide, by decide, by decide, by decide⟩,
   C8_later_field_overwrites (Request.dict {})
     [("engine", ("x", none)), ("n", ("x", none))] false "x" "engine" "n"
     (Value.str "text-ada-001") (Value.int 1)
     (by decide) (by decide) (by decide) (by decide)⟩

/-- C9: normalization is total, deterministic and produces a genuine mapping:
for every descriptor field list, allow-list and flag, the result is defined
(the embedding is a total function on immutable values), two calls with the
same arguments agree, and the result's keys are pairwise distinct. -/
theorem C9_total_pure_mapping (d : List (String × Option Value)) (ak : AllowList)
    (b : Bool) :
    to_dictCore d ak b = to_dictCore d ak b ∧
    ((to_dictCore d ak b).map Prod.fst).Nodup := by
  refine ⟨rfl, ?_⟩
  rw [to_dictCore_eq_pyDict]
  exact nodup_keys_pyDictOfList _

/-- C10: with no allow-list the `add_prompt` flag is never read — the
`false` and `true` results coincide — and the `prompt` key is present in the
result whenever the prompt value is non-null. -/
theorem C10_add_prompt_irrelevant_without_allowlist
    (d : List (String × Option Value)) (b : Bool) (v : Value)
    (hp : ("prompt", some v) ∈ d) :
    to_dictCore d [] false = to_dictCore d [] true ∧
    "prompt" ∈ (to_dictCore d [] b).map Prod.fst := by
  constructor
  · rfl
  · have hcand : ("prompt", some v) ∈ filteredFields d (includeKeys [] b) := hp
    have hem : ("prompt", v) ∈ emitted d [] b :=
      (mem_emitted d [] b "prompt" v).mpr ⟨"prompt", hcand, rfl⟩
    rw [to_dictCore_eq_pyDict, mem_keys_pyDictOfList]
    exact List.mem_map.mpr ⟨_, hem, rfl⟩

/-- C10, witness at a concrete input. -/
theorem C10_witness :
    ("prompt", some (Value.str "")) ∈ Request.dict {} ∧
    (to_dictCore (Request.dict {}) [] false = to_dictCore (Request.dict {}) [] true ∧
      "prompt" ∈ (to_dictCore (Request.dict {}) [] false).map Prod.fst) :=
  ⟨by decide,
   C10_add_prompt_irrelevant_without_allowlist (Request.dict {}) false
     (Value.str "") (by decide)⟩

end Manifest
